import Mathlib

/-!
# Verification of the platform payout extraction engine

A shallow embedding, in Lean 4, of the core of the
`paperless-document-processor` repository:

* `pkg/excel` (cell/range algebra): `NewCell`, `NewRange`,
  `Cell.String`, `Range.String`;
* `config/config.go` (configuration model): `ImportConfig.ToOptionString`,
  `ExportConfig.ToSelectExpresssions`, `GetTableName`;
* `pkg/storage/db.go` (ingestion and projection):
  `ProcessPlatformExcel`, `GetRangeEnd`, `GetPlatformExcelRows`.

Go strings are modelled as `List Char` (the configs and ranges handled by
the engine are ASCII, where Go's byte indexing, `unicode.IsDigit`,
`strings.ToLower` and rune iteration coincide with the per-`Char` model).
Go `int` is modelled as `Int` (overflow is irrelevant at the row counts and
document ids involved; `strconv.Atoi`'s 64-bit overflow failure is modelled
explicitly).  The DuckDB connection is modelled as an oracle mapping
statement text to outcomes; `Conn.Exec`/`QueryRow`/`Scan` behaviour is
threaded exactly the way `db.go` consumes it.
-/

/-- Go strings, as lists of characters (ASCII fragment). -/
abbrev GoStr := List Char

/-- Embed a Lean string literal as a Go string. -/
def str (s : String) : GoStr := s.data

namespace Excel

/-! ## `pkg/excel`: the cell/range algebra -/

/-- `excel.Cell`: a column name and a row; `Row = 0` is the sentinel for
"no row specified" (Go `int`, hence `Int`). -/
structure Cell where
  Column : GoStr
  Row : Int
deriving DecidableEq, Repr

/-- `excel.Range`: start and end cell. -/
structure Range where
  Start : Cell
  End : Cell
deriving DecidableEq, Repr

/-- Decimal digits of `n`, most significant first (`[]` for `n = 0`);
fuel-based so that the kernel can evaluate it (`n` itself is enough fuel,
since the argument shrinks by `/ 10` every step). -/
def digitsAux : Nat → Nat → GoStr
  | 0, _ => []
  | fuel + 1, n => if n = 0 then [] else digitsAux fuel (n / 10) ++ [Char.ofNat (48 + n % 10)]

/-- Decimal digits of `n`, most significant first; `[]` for `0`. -/
def natDigits (n : Nat) : GoStr := digitsAux n n

/-- The decimal numeral of `n`, as printed by Go's `%d` for naturals. -/
def natRepr (n : Nat) : GoStr := if n = 0 then [Char.ofNat 48] else natDigits n

/-- The decimal numeral of `i`, as printed by Go's `%d` on an `int`. -/
def intRepr (i : Int) : GoStr :=
  if i < 0 then Char.ofNat 45 :: natRepr i.natAbs else natRepr i.toNat

/-- Numeric value of a digit string, as accumulated by `strconv.Atoi`
(left fold, `c - '0'` per character). -/
def digitsToNat (l : GoStr) : Nat := l.foldl (fun a c => a * 10 + (c.toNat - 48)) 0

/-- `strconv.Atoi`: optional sign, then one or more ASCII digits, value
within the 64-bit `int` range; anything else (including overflow) is an
error, modelled as `none`. -/
def atoi (s : GoStr) : Option Int :=
  match s with
  | [] => none
  | c :: ds =>
    if c = '-' then
      if ds ≠ [] ∧ ds.all Char.isDigit ∧ digitsToNat ds ≤ 2 ^ 63 then
        some (-(digitsToNat ds : Int))
      else none
    else if c = '+' then
      if ds ≠ [] ∧ ds.all Char.isDigit ∧ digitsToNat ds < 2 ^ 63 then
        some (digitsToNat ds : Int)
      else none
    else
      if (c :: ds).all Char.isDigit ∧ digitsToNat (c :: ds) < 2 ^ 63 then
        some (digitsToNat (c :: ds) : Int)
      else none

/-- The split performed by `NewCell`'s loop: the prefix before the first
digit, and the rest of the string starting at the first digit (`[]` when
the string has no digit).  Mirrors `for i, r := range cell` +
`unicode.IsDigit(r)` giving `cell[:i]` and `cell[i:]`. -/
def splitAtDigit : GoStr → GoStr × GoStr
  | [] => ([], [])
  | c :: rest =>
    if c.isDigit then ([], c :: rest)
    else
      let p := splitAtDigit rest
      (c :: p.1, p.2)

/-- `excel.NewCell`: split at the first digit; the prefix is the column,
the suffix (if any) is parsed with `Atoi` (a parse failure on a nonempty
suffix is the `invalid cell format` error); a string without digits is a
column-only cell with `Row = 0`. -/
def NewCell (cell : GoStr) : Option Cell :=
  let p := splitAtDigit cell
  if p.2 = [] then some ⟨cell, 0⟩
  else
    match atoi p.2 with
    | some row => some ⟨p.1, row⟩
    | none => none

/-- `excel.NewRange`: split on `':'`; exactly two parts, each parsed as a
cell; anything else is the `invalid range format` error. -/
def NewRange (rangeExpr : GoStr) : Option Range :=
  match rangeExpr.splitOn ':' with
  | [a, b] =>
    match NewCell a, NewCell b with
    | some s, some e => some ⟨s, e⟩
    | _, _ => none
  | _ => none

/-- `Cell.String`: the column alone when `Row = 0`, else column followed by
the decimal row (`fmt.Sprintf("%s%d", ...)`). -/
def Cell.toGoStr (c : Cell) : GoStr :=
  if c.Row = 0 then c.Column else c.Column ++ intRepr c.Row

/-- `Range.String`: `fmt.Sprintf("%s:%s", start, end)`. -/
def Range.toGoStr (r : Range) : GoStr := r.Start.toGoStr ++ ':' :: r.End.toGoStr

/-! ### Well-formedness of cell and range text

Well-formed cell text is what the spec's round-trip law ranges over: a
digit-free column part, optionally followed by a canonical decimal row
numeral (no leading zeros, row at least 1, within `strconv.Atoi`'s 64-bit
range). -/

/-- Well-formed cell text: either digit-free (column-only reference), or a
digit-free column followed by the canonical numeral of a row `≥ 1`. -/
def WFCell (s : GoStr) : Prop :=
  (∀ c ∈ s, c.isDigit = false) ∨
  ∃ col r, s = col ++ natDigits r ∧ (∀ c ∈ col, c.isDigit = false) ∧ 1 ≤ r ∧ r < 2 ^ 63

/-- Well-formed range text: two well-formed cell texts joined by the only
`':'` of the string. -/
def WFRange (s : GoStr) : Prop :=
  ∃ a b, s = a ++ ':' :: b ∧ WFCell a ∧ WFCell b ∧ ':' ∉ a ∧ ':' ∉ b


end Excel

namespace Config

/-! ## `config/config.go`: the configuration model -/

/-- `config.RelativeRange` (Go `int` fields). -/
structure RelativeRange where
  RelativeConfigIndex : Int
  RowsOffset : Int
deriving DecidableEq, Repr

/-- `config.ImportConfig`.  Go zero values: `""` is `[]`, `false`, and the
zero `RelativeRange`. -/
structure ImportConfig where
  TableName : GoStr := []
  Sheet : GoStr := []
  Range : GoStr := []
  RelativeRange : RelativeRange := ⟨0, 0⟩
  Header : Bool := false
  StopAtEmpty : Bool := false
  AllVarchar : Bool := false
deriving DecidableEq, Repr

/-- `config.DataReaderConfig`. -/
structure DataReaderConfig where
  ColumnName : GoStr
  Expression : GoStr
deriving DecidableEq, Repr

/-- `config.ExportConfig`. -/
structure ExportConfig where
  TableName : GoStr := []
  ReaderConfigs : List DataReaderConfig := []
deriving DecidableEq, Repr

/-- `config.PlatformConfig`. -/
structure PlatformConfig where
  ImportConfigs : List ImportConfig := []
  ExportConfigs : List ExportConfig := []
deriving DecidableEq, Repr

/-- `ImportConfig.ToOptionString`: option fragments appended (`options +=`)
for exactly the fields that are set, in the fixed source order
`header`, `stop_at_empty`, `all_varchar`, `sheet`, `range`. -/
def ImportConfig.ToOptionString (p : ImportConfig) : GoStr :=
  (if p.Header then str "header=true," else [])
    ++ (if p.StopAtEmpty then str "stop_at_empty=true," else [])
    ++ (if p.AllVarchar then str "all_varchar=true," else [])
    ++ (if p.Sheet ≠ [] then str "sheet='" ++ p.Sheet ++ str "'," else [])
    ++ (if p.Range ≠ [] then str "range='" ++ p.Range ++ str "'" else [])

/-- `ExportConfig.ToSelectExpresssions` (sic): renders
`{ col1: expr1, col2: expr2, ... }` by folding over the reader configs
exactly as the Go loop builds `expressions`. -/
def ExportConfig.ToSelectExpresssions (p : ExportConfig) : GoStr :=
  str "\x7b " ++
    (p.ReaderConfigs.foldl
      (fun expressions rc =>
        if expressions = [] then rc.ColumnName ++ str ": " ++ rc.Expression
        else expressions ++ str ", " ++ rc.ColumnName ++ str ": " ++ rc.Expression)
      []) ++ str " \x7d"

/-- `strings.ToLower`, on the ASCII fragment (character-wise). -/
def goToLower (s : GoStr) : GoStr := s.map Char.toLower

/-- `strings.ReplaceAll` for a single-character pattern and replacement
(the only shape the source uses: `" "→"_"` and `":"→"_"`), which is
character-wise substitution. -/
def goReplaceAllChar (s : GoStr) (a b : Char) : GoStr :=
  s.map (fun c => if c = a then b else c)

/-- `ImportConfig.GetTableName`: the explicit `table_name` verbatim when
set, otherwise `payout_<lower(platform)>_<sheet, spaces→_>_<range, colons→_>`. -/
def ImportConfig.GetTableName (p : ImportConfig) (platform : GoStr) : GoStr :=
  if p.TableName ≠ [] then p.TableName
  else
    str "payout_" ++ goToLower platform ++ str "_"
      ++ goReplaceAllChar p.Sheet ' ' '_' ++ str "_"
      ++ goReplaceAllChar p.Range ':' '_'

/-- `ExportConfig.GetTableName`: always the declared table name. -/
def ExportConfig.GetTableName (p : ExportConfig) (_platform : GoStr) : GoStr :=
  p.TableName

end Config

namespace Storage

open Excel Config

/-! ## `pkg/storage/db.go`: ingestion and projection

The DuckDB connection is modelled as an oracle over statement text.
`Conn.Exec` either succeeds (`none`) or fails with an error message
(`some e`).  A `QueryRow` used by the source is modelled by the outcome
the source can observe through it: `rows.Err()` (`Except.error`), and the
subsequent `rows.Scan` whose error the source **discards** — a failed scan
leaves the scanned variable at its zero value, modelled as `Except.ok none`;
a successful scan is `Except.ok (some v)`. -/

/-- Values held in a DuckDB result map (`map[string]interface{}` payloads);
the engine only moves them around, so the exact universe is irrelevant. -/
inductive GoValue where
  | vstr (s : GoStr)
  | vint (n : Int)
deriving DecidableEq, Repr

/-- The DuckDB connection oracle. -/
structure DuckDB where
  exec : GoStr → Option GoStr
  count : GoStr → Int → Except GoStr (Option Int)
  projQuery : GoStr → Int → Except GoStr (Option (List (GoStr × GoValue)))

/-- The result of a Go runtime step that can also panic: `ok`, a returned
`error`, or a runtime panic (`crash`). -/
inductive Outcome (α : Type) where
  | ok (a : α)
  | err (e : GoStr)
  | crash (e : GoStr)
deriving DecidableEq, Repr

/-- The row-count query text of `GetRangeEnd`
(`fmt.Sprintf("SELECT COUNT(1) FROM %s WHERE document_id = ?", ...)`). -/
def countQueryStr (tableName : GoStr) : GoStr :=
  str "SELECT COUNT(1) FROM " ++ tableName ++ str " WHERE document_id = ?"

/-- `DB.GetRangeEnd`: parse the anchor's declared range; an explicit end row
is returned unchanged; otherwise (for a nonempty range) count the rows
already stored for this document in the anchor's table, decrement when the
anchor has no header, and end at `start.row + count`.  The `rows.Scan`
error is discarded (`Except.ok none` leaves `rowCount` at 0). -/
def GetRangeEnd (db : DuckDB) (docID : Int) (platform : GoStr)
    (option : ImportConfig) : Except GoStr Range :=
  match NewRange option.Range with
  | none => .error (str "failed to parse range: invalid range format: " ++ option.Range)
  | some rangeStartObj =>
    if rangeStartObj.End.Row > 0 then .ok rangeStartObj
    else if option.Range ≠ [] then
      match db.count (countQueryStr (option.GetTableName platform)) docID with
      | .error e => .error (str "failed to query platform table: " ++ e)
      | .ok scanned =>
        let rowCount : Int := scanned.getD 0
        let rowCount := if option.Header then rowCount else rowCount - 1
        .ok ⟨rangeStartObj.Start, ⟨rangeStartObj.End.Column, rangeStartObj.Start.Row + rowCount⟩⟩
    else .ok ⟨⟨[], 0⟩, ⟨[], 0⟩⟩

/-- The per-iteration head of `ProcessPlatformExcel`'s loop: when the
(value-copied) `importConfig` has `RelativeConfigIndex > 0`, index the
platform's import list (Go panics when the index is out of range),
resolve the anchor's end via `GetRangeEnd`, re-parse the anchor's declared
range and overwrite the **local** copy's `Range` with the row-shifted
string.  Returns the working copy used for the rest of the iteration. -/
def resolveImportConfig (db : DuckDB) (docID : Int) (platform : GoStr)
    (options : PlatformConfig) (importConfig : ImportConfig) : Outcome ImportConfig :=
  if importConfig.RelativeRange.RelativeConfigIndex > 0 then
    match options.ImportConfigs[importConfig.RelativeRange.RelativeConfigIndex.toNat]? with
    | none => .crash (str "runtime error: index out of range")
    | some relativeOption =>
      match GetRangeEnd db docID platform relativeOption with
      | .error e => .err (str "failed to get relative range end: " ++ e)
      | .ok relativeRangeEnd =>
        match NewRange relativeOption.Range with
        | none => .err (str "failed to create current range: invalid range format: "
            ++ relativeOption.Range)
        | some currentRange =>
          let currentRange := { currentRange with
            Start := { currentRange.Start with
              Row := relativeRangeEnd.End.Row + importConfig.RelativeRange.RowsOffset } }
          .ok { importConfig with Range := currentRange.toGoStr }
  else .ok importConfig

/-- The `CREATE TABLE IF NOT EXISTS ... LIMIT 0` statement text. -/
def createStmtStr (tableName : GoStr) (docID : Int) (filePath optionStr : GoStr) : GoStr :=
  str "CREATE TABLE IF NOT EXISTS " ++ tableName ++ str " AS SELECT " ++ intRepr docID
    ++ str " as document_id, * FROM read_xlsx('" ++ filePath ++ str "', " ++ optionStr
    ++ str ") LIMIT 0;"

/-- The `INSERT ... BY NAME` statement text. -/
def insertByNameStmtStr (tableName : GoStr) (docID : Int) (filePath optionStr : GoStr) : GoStr :=
  str "INSERT INTO " ++ tableName ++ str " BY NAME SELECT " ++ intRepr docID
    ++ str " as document_id, * FROM read_xlsx('" ++ filePath ++ str "', " ++ optionStr
    ++ str ");"

/-- The positional fallback `INSERT` statement text. -/
def insertFallbackStmtStr (tableName : GoStr) (docID : Int) (filePath optionStr : GoStr) : GoStr :=
  str "INSERT INTO " ++ tableName ++ str " SELECT " ++ intRepr docID
    ++ str " as document_id, * FROM read_xlsx('" ++ filePath ++ str "', " ++ optionStr
    ++ str ");"

/-- The loop of `DB.ProcessPlatformExcel` over the remaining import
configs.  Returns the outcome, the trace of statements issued to the
connection (in order; the store is append-only, nothing is ever rolled
back), and the `options` value, which the Go body never writes to —
`for _, importConfig := range ...` iterates over element **copies**, and
`importConfig.Range = ...` mutates only that copy. -/
def processConfigs (db : DuckDB) (docID : Int) (filePath platform : GoStr)
    (options : PlatformConfig) :
    List ImportConfig → List GoStr → Outcome Unit × List GoStr × PlatformConfig
  | [], trace => (.ok (), trace, options)
  | importConfig :: rest, trace =>
    match resolveImportConfig db docID platform options importConfig with
    | .crash e => (.crash e, trace, options)
    | .err e => (.err e, trace, options)
    | .ok importConfig =>
      let optionStr := importConfig.ToOptionString
      let tableName := importConfig.GetTableName platform
      let createStmt := createStmtStr tableName docID filePath optionStr
      let trace := trace ++ [createStmt]
      match db.exec createStmt with
      | some e => (.err (str "failed to create platform table: " ++ e), trace, options)
      | none =>
        let insertStmt := insertByNameStmtStr tableName docID filePath optionStr
        let trace := trace ++ [insertStmt]
        match db.exec insertStmt with
        | none => processConfigs db docID filePath platform options rest trace
        | some e =>
          let fallbackStmt := insertFallbackStmtStr tableName docID filePath optionStr
          let trace := trace ++ [fallbackStmt]
          match db.exec fallbackStmt with
          | none => processConfigs db docID filePath platform options rest trace
          | some e2 =>
            (.err (str "failed to insert excel data: " ++ e
              ++ str " (fallback error: " ++ e2 ++ str ")"), trace, options)

/-- `DB.ProcessPlatformExcel`: run every import config in declared order. -/
def ProcessPlatformExcel (db : DuckDB) (docID : Int) (filePath platform : GoStr)
    (options : PlatformConfig) : Outcome Unit × List GoStr × PlatformConfig :=
  processConfigs db docID filePath platform options options.ImportConfigs []

end Storage

namespace Storage

open Excel Config

/-! ### The canonical record and the decode-merge

`GetPlatformExcelRows` accumulates a `duckdb.Composite[accounting.PayoutInput]`
and feeds each export's scanned `map[string]interface{}` into its `Scan`
method. -/

/-- The accumulating canonical payout record as a field-name → value
association (fields in first-set order, each name at most once once built
from empty).

Modelled from the spec: the repository vendors `duckdb.Composite`, whose
`Scan` runs `mapstructure.Decode` into the *existing* struct value — the
library source is not under `src/`.  Per §4.5 of the spec, each scanned
mapping is "merged ... into the accumulating canonical output record by
field name; a field present in more than one export's mapping is
overwritten by the later export".  Decoding into a fixed-field struct is
modelled generically as a field map. -/
abbrev Record := List (GoStr × GoValue)

/-- Set one field of the record: overwrite the existing entry for that
name, or append a new one. -/
def setField : Record → GoStr → GoValue → Record
  | [], k, v => [(k, v)]
  | (k0, v0) :: rest, k, v =>
    if k0 = k then (k, v) :: rest else (k0, v0) :: setField rest k v

/-- Decode-merge a scanned mapping into the record: every field named in
the mapping is overwritten (in mapping order); fields absent from the
mapping are left untouched. -/
def mergeRecord (acc : Record) (m : List (GoStr × GoValue)) : Record :=
  m.foldl (fun a kv => setField a kv.1 kv.2) acc

/-- Look a field up by name. -/
def recLookup : Record → GoStr → Option GoValue
  | [], _ => none
  | (k, v) :: rest, q => if q = k then some v else recLookup rest q

/-- The field names of a record / scanned mapping. -/
def recKeys (r : Record) : List GoStr := r.map (fun kv => kv.1)

/-- The projection query text of `GetPlatformExcelRows`
(`fmt.Sprintf("SELECT %s FROM %s WHERE document_id = ?", ...)`). -/
def exportQueryStr (exportConfig : ExportConfig) (platform : GoStr) : GoStr :=
  str "SELECT " ++ exportConfig.ToSelectExpresssions ++ str " FROM "
    ++ exportConfig.GetTableName platform ++ str " WHERE document_id = ?"

/-- The loop of `DB.GetPlatformExcelRows`: skip exports with no reader
configs; fail on `rows.Err()`; `rows.Scan`'s error is discarded, so a
missing row leaves the scanned map at its zero value and the accumulator
unchanged; a scanned map is decode-merged into the accumulator. -/
def getRowsLoop (db : DuckDB) (docID : Int) (platform : GoStr) :
    List ExportConfig → Record → Except GoStr Record
  | [], acc => .ok acc
  | exportConfig :: rest, acc =>
    if exportConfig.ReaderConfigs = [] then getRowsLoop db docID platform rest acc
    else
      match db.projQuery (exportQueryStr exportConfig platform) docID with
      | .error e => .error (str "failed to query platform table: " ++ e)
      | .ok none => getRowsLoop db docID platform rest acc
      | .ok (some jsonMap) => getRowsLoop db docID platform rest (mergeRecord acc jsonMap)

/-- `DB.GetPlatformExcelRows`: apply every export config in declared order
to an initially zero-valued payout record. -/
def GetPlatformExcelRows (db : DuckDB) (docID : Int) (platform : GoStr)
    (options : PlatformConfig) : Except GoStr Record :=
  getRowsLoop db docID platform options.ExportConfigs []

end Storage

namespace Fixtures

/-! ### Concrete fixtures used by witnesses and counterexamples -/

open Excel Config Storage

/-- A connection on which every statement succeeds, every count query scans
`0`, and every projection query's scan fails (zero-valued result). -/
def dbTrivial : DuckDB where
  exec := fun _ => none
  count := fun _ _ => .ok (some 0)
  projQuery := fun _ _ => .ok none

/-- A connection whose count queries all scan `50` rows. -/
def dbCount50 : DuckDB where
  exec := fun _ => none
  count := fun _ _ => .ok (some 50)
  projQuery := fun _ _ => .ok none

/-- A connection whose count queries all scan `10` rows. -/
def dbCount10 : DuckDB where
  exec := fun _ => none
  count := fun _ _ => .ok (some 10)
  projQuery := fun _ _ => .ok none

/-- A scanned projection mapping used by witnesses. -/
def projMap : List (GoStr × GoValue) :=
  [(str "outlet_name", .vstr (str "X")), (str "final_payout_amt", .vint 7)]

/-- A connection whose projection queries all return the scanned mapping
`projMap`. -/
def dbProj : DuckDB where
  exec := fun _ => none
  count := fun _ _ => .ok (some 0)
  projQuery := fun _ _ => .ok (some projMap)

/-- The import config used by the ingestion-failure witness. -/
def c6cfg : ImportConfig := { Sheet := str "Data", Range := str "A1:D", Header := true }

/-- A connection on which exactly the two insert statements for `c6cfg`
fail — the name-based one with message `nameERR`, the positional one with
`posERR` — and everything else succeeds. -/
def dbInsertFail : DuckDB where
  exec := fun s =>
    if s = insertByNameStmtStr (c6cfg.GetTableName (str "swiggy")) 1 (str "f.xlsx")
        c6cfg.ToOptionString then some (str "nameERR")
    else if s = insertFallbackStmtStr (c6cfg.GetTableName (str "swiggy")) 1 (str "f.xlsx")
        c6cfg.ToOptionString then some (str "posERR")
    else none
  count := fun _ _ => .ok (some 0)
  projQuery := fun _ _ => .ok none

/-- The §4.3 anchor import config: range `A3:AR`, `header=true`. -/
def anchorA3AR : ImportConfig := { Sheet := str "Order Level", Range := str "A3:AR", Header := true }

/-- The §4.3 dependent config: anchored at index 1, `rows_offset=2`. -/
def depOffset2 : ImportConfig := { RelativeRange := ⟨1, 2⟩ }

/-- The header-less anchor of the second §4.3 example: range `B2:C`. -/
def anchorB2C : ImportConfig := { Sheet := str "Payout Breakup", Range := str "B2:C", Header := false }

/-- The dependent config of the second §4.3 example: anchored at index 1,
`rows_offset=0`. -/
def depOffset0 : ImportConfig := { RelativeRange := ⟨1, 0⟩ }

/-- A filler first import config (index 0 cannot be an anchor). -/
def filler : ImportConfig := { Sheet := str "Summary", Range := str "A1:B2" }

/-- An export config with one reader column. -/
def exportA : ExportConfig :=
  { TableName := str "payout_swiggy_Order_Level_A3_AR",
    ReaderConfigs := [⟨str "outlet_name", str "first(outlet)"⟩] }

/-- A second export config with one reader column. -/
def exportB : ExportConfig :=
  { TableName := str "payout_swiggy_Payout_Breakup_B2_C",
    ReaderConfigs := [⟨str "final_payout_amt", str "sum(amount)"⟩] }

end Fixtures



namespace Excel

/-! ### Digit-printing lemmas -/

theorem digitsAux_zero (f : Nat) : digitsAux f 0 = [] := by
  cases f <;> simp [digitsAux]

theorem digitsAux_extra (n : Nat) : ∀ f₁ f₂ : Nat, n ≤ f₁ → n ≤ f₂ →
    digitsAux f₁ n = digitsAux f₂ n := by
  induction n using Nat.strong_induction_on with
  | _ n ih =>
    intro f₁ f₂ h₁ h₂
    rcases Nat.eq_zero_or_pos n with rfl | hn
    · rw [digitsAux_zero, digitsAux_zero]
    · obtain ⟨g₁, rfl⟩ : ∃ g, f₁ = g + 1 := ⟨f₁ - 1, by omega⟩
      obtain ⟨g₂, rfl⟩ : ∃ g, f₂ = g + 1 := ⟨f₂ - 1, by omega⟩
      have hdiv : n / 10 < n := Nat.div_lt_self hn (by norm_num)
      simp only [digitsAux, if_neg (Nat.pos_iff_ne_zero.mp hn)]
      rw [ih (n / 10) hdiv g₁ g₂ (by omega) (by omega)]

theorem natDigits_succ {n : Nat} (hn : n ≠ 0) :
    natDigits n = natDigits (n / 10) ++ [Char.ofNat (48 + n % 10)] := by
  obtain ⟨m, rfl⟩ : ∃ m, n = m + 1 := ⟨n - 1, by omega⟩
  have hdiv : (m + 1) / 10 < m + 1 := Nat.div_lt_self (by omega) (by norm_num)
  simp only [natDigits, digitsAux, if_neg hn]
  rw [digitsAux_extra ((m + 1) / 10) m ((m + 1) / 10) (by omega) (by omega)]

theorem digit_char_isDigit : ∀ d : Fin 10, (Char.ofNat (48 + d.val)).isDigit = true := by
  decide

theorem digit_char_toNat : ∀ d : Fin 10, (Char.ofNat (48 + d.val)).toNat = 48 + d.val := by
  decide

theorem natDigits_all_digits (n : Nat) : ∀ c ∈ natDigits n, c.isDigit = true := by
  induction n using Nat.strong_induction_on with
  | _ n ih =>
    intro c hc
    rcases Nat.eq_zero_or_pos n with rfl | hn
    · simp [natDigits, digitsAux_zero] at hc
    · rw [natDigits_succ (Nat.pos_iff_ne_zero.mp hn)] at hc
      rcases List.mem_append.mp hc with h | h
      · exact ih (n / 10) (Nat.div_lt_self hn (by norm_num)) c h
      · rcases List.mem_singleton.mp h with rfl
        exact digit_char_isDigit ⟨n % 10, Nat.mod_lt n (by norm_num)⟩

theorem natDigits_ne_nil {n : Nat} (hn : n ≠ 0) : natDigits n ≠ [] := by
  rw [natDigits_succ hn]
  simp

theorem digitsToNat_append_digit (l : GoStr) (c : Char) :
    digitsToNat (l ++ [c]) = digitsToNat l * 10 + (c.toNat - 48) := by
  simp [digitsToNat, List.foldl_append]

theorem digitsToNat_natDigits (n : Nat) : digitsToNat (natDigits n) = n := by
  induction n using Nat.strong_induction_on with
  | _ n ih =>
    rcases Nat.eq_zero_or_pos n with rfl | hn
    · simp [natDigits, digitsAux_zero, digitsToNat]
    · rw [natDigits_succ (Nat.pos_iff_ne_zero.mp hn), digitsToNat_append_digit,
        ih (n / 10) (Nat.div_lt_self hn (by norm_num))]
      rw [digit_char_toNat ⟨n % 10, Nat.mod_lt n (by norm_num)⟩]
      simp only [Fin.val_mk]
      omega


theorem splitAtDigit_no_digit {s : GoStr} (h : ∀ c ∈ s, c.isDigit = false) :
    splitAtDigit s = (s, []) := by
  induction s with
  | nil => rfl
  | cons c rest ih =>
    have hc : c.isDigit = false := h c (List.mem_cons_self c rest)
    have ih' := ih (fun x hx => h x (List.mem_cons_of_mem c hx))
    simp [splitAtDigit, hc, ih']

theorem splitAtDigit_append {col : GoStr} {d : Char} (rest : GoStr)
    (h : ∀ c ∈ col, c.isDigit = false) (hd : d.isDigit = true) :
    splitAtDigit (col ++ d :: rest) = (col, d :: rest) := by
  induction col with
  | nil => simp [splitAtDigit, hd]
  | cons c col ih =>
    have hc : c.isDigit = false := h c (List.mem_cons_self c col)
    have ih' := ih (fun x hx => h x (List.mem_cons_of_mem c hx))
    simp [splitAtDigit, hc, ih']

theorem newCell_roundtrip (s : GoStr) (h : WFCell s) :
    ∃ c, NewCell s = some c ∧ c.toGoStr = s := by
  rcases h with h | ⟨col, r, rfl, hcol, hr1, hr2⟩
  · refine ⟨⟨s, 0⟩, ?_, ?_⟩
    · simp [NewCell, splitAtDigit_no_digit h]
    · simp [Cell.toGoStr]
  · cases hnd : natDigits r with
    | nil => exact absurd hnd (natDigits_ne_nil (by omega))
    | cons d ds =>
      have hall : ∀ c ∈ natDigits r, c.isDigit = true := natDigits_all_digits r
      have hd : d.isDigit = true := hall d (by rw [hnd]; exact List.mem_cons_self d ds)
      have hdash : ¬ d = '-' := fun e => by rw [e] at hd; exact absurd hd (by decide)
      have hplus : ¬ d = '+' := fun e => by rw [e] at hd; exact absurd hd (by decide)
      have hsplit : splitAtDigit (col ++ d :: ds) = (col, d :: ds) :=
        splitAtDigit_append ds hcol hd
      have hval : digitsToNat (d :: ds) = r := by
        rw [← hnd]; exact digitsToNat_natDigits r
      have hatoi : atoi (d :: ds) = some (r : Int) := by
        have hcond : (d :: ds).all Char.isDigit = true := by
          apply List.all_eq_true.mpr
          intro x hx
          exact hall x (by rw [hnd]; exact hx)
        simp only [atoi, if_neg hdash, if_neg hplus]
        rw [if_pos ⟨hcond, by rw [hval]; exact hr2⟩, hval]
      refine ⟨⟨col, (r : Int)⟩, ?_, ?_⟩
      · simp [NewCell, hsplit, hatoi]
      · have hrow : ((r : Nat) : Int) ≠ 0 := by omega
        have hnonneg : ¬ ((r : Nat) : Int) < 0 := by omega
        simp only [Cell.toGoStr, if_neg hrow, intRepr, if_neg hnonneg, Int.toNat_natCast,
          natRepr, if_neg (by omega : ¬ r = 0)]
        rw [hnd]

theorem splitOn_of_single_sep {a b : GoStr} (hna : ':' ∉ a) (hnb : ':' ∉ b) :
    (a ++ ':' :: b).splitOn ':' = [a, b] := by
  have h1 : ∀ x ∈ a, ¬((x == ':') = true) := by
    intro x hx hbeq
    rw [eq_of_beq hbeq] at hx
    exact hna hx
  have h2 : ∀ x ∈ b, ¬((x == ':') = true) := by
    intro x hx hbeq
    rw [eq_of_beq hbeq] at hx
    exact hnb hx
  show (a ++ ':' :: b).splitOnP (· == ':') = [a, b]
  have e1 := List.splitOnP_first (fun x => x == ':') a h1 ':' (by simp) b
  have e2 := List.splitOnP_eq_single (fun x => x == ':') b h2
  rw [e1, e2]

theorem newRange_roundtrip (s : GoStr) (h : WFRange s) :
    ∃ r, NewRange s = some r ∧ r.toGoStr = s := by
  rcases h with ⟨a, b, rfl, ha, hb, hna, hnb⟩
  obtain ⟨ca, hca, hcas⟩ := newCell_roundtrip a ha
  obtain ⟨cb, hcb, hcbs⟩ := newCell_roundtrip b hb
  refine ⟨⟨ca, cb⟩, ?_, ?_⟩
  · simp only [NewRange, splitOn_of_single_sep hna hnb, hca, hcb]
  · simp [Range.toGoStr, hcas, hcbs]


end Excel


namespace Storage

open Excel Config

/-! ### Record-merge lemmas -/

theorem recKeys_cons (k : GoStr) (v : GoValue) (rest : Record) :
    recKeys ((k, v) :: rest) = k :: recKeys rest := rfl

theorem recLookup_setField (acc : Record) (k : GoStr) (v : GoValue) (q : GoStr) :
    recLookup (setField acc k v) q = if q = k then some v else recLookup acc q := by
  induction acc with
  | nil =>
    by_cases hq : q = k <;> simp [setField, recLookup, hq]
  | cons kv rest ih =>
    obtain ⟨k0, v0⟩ := kv
    by_cases h : k0 = k
    · subst h
      by_cases hq : q = k0 <;> simp [setField, recLookup, hq]
    · have hs : setField ((k0, v0) :: rest) k v = (k0, v0) :: setField rest k v := by
        simp [setField, h]
      rw [hs]
      by_cases hq : q = k0
      · have hqk : ¬ q = k := fun e => h (hq.symm.trans e)
        simp [recLookup, hq, hqk, h]
      · simp [recLookup, hq, ih]

theorem recLookup_eq_none {r : Record} {q : GoStr} (h : q ∉ recKeys r) :
    recLookup r q = none := by
  induction r with
  | nil => rfl
  | cons kv rest ih =>
    obtain ⟨k0, v0⟩ := kv
    rw [recKeys_cons] at h
    have h0 : ¬ q = k0 := fun e => h (e ▸ List.mem_cons_self k0 (recKeys rest))
    have hr : q ∉ recKeys rest := fun hc => h (List.mem_cons_of_mem k0 hc)
    simp [recLookup, h0, ih hr]

theorem recLookup_mergeRecord (m : List (GoStr × GoValue)) :
    ∀ (acc : Record) (q : GoStr), (recKeys m).Nodup →
    recLookup (mergeRecord acc m) q =
      match recLookup m q with
      | some v => some v
      | none => recLookup acc q := by
  induction m with
  | nil => intro acc q _; simp [mergeRecord, recLookup]
  | cons kv m ih =>
    intro acc q h
    obtain ⟨k, v⟩ := kv
    rw [recKeys_cons] at h
    have hk : k ∉ recKeys m := (List.nodup_cons.mp h).1
    have hnd : (recKeys m).Nodup := (List.nodup_cons.mp h).2
    have hstep : mergeRecord acc ((k, v) :: m) = mergeRecord (setField acc k v) m := rfl
    rw [hstep, ih _ q hnd]
    by_cases hq : q = k
    · subst hq
      rw [recLookup_eq_none hk]
      simp [recLookup, recLookup_setField]
    · simp [recLookup, hq, recLookup_setField]

theorem setField_append {acc : Record} {k : GoStr} (v : GoValue) (h : k ∉ recKeys acc) :
    setField acc k v = acc ++ [(k, v)] := by
  induction acc with
  | nil => rfl
  | cons kv rest ih =>
    obtain ⟨k0, v0⟩ := kv
    rw [recKeys_cons] at h
    have h0 : ¬ k0 = k := fun e => h (e ▸ List.mem_cons_self k0 (recKeys rest))
    have hr : k ∉ recKeys rest := fun hc => h (List.mem_cons_of_mem k0 hc)
    simp [setField, h0, ih hr]

theorem recKeys_append (r s : Record) : recKeys (r ++ s) = recKeys r ++ recKeys s := by
  simp [recKeys]

theorem mergeRecord_append (m : List (GoStr × GoValue)) :
    ∀ acc : Record, (recKeys m).Nodup → (∀ x ∈ recKeys m, x ∉ recKeys acc) →
    mergeRecord acc m = acc ++ m := by
  induction m with
  | nil => intro acc _ _; simp [mergeRecord]
  | cons kv m ih =>
    intro acc h hdisj
    obtain ⟨k, v⟩ := kv
    rw [recKeys_cons] at h hdisj
    have hkm : k ∉ recKeys m := (List.nodup_cons.mp h).1
    have hnd : (recKeys m).Nodup := (List.nodup_cons.mp h).2
    have hk : k ∉ recKeys acc := hdisj k (List.mem_cons_self k (recKeys m))
    have hstep : mergeRecord acc ((k, v) :: m) = mergeRecord (setField acc k v) m := rfl
    rw [hstep, setField_append v hk, ih (acc ++ [(k, v)]) hnd ?_]
    · simp
    · intro x hx
      rw [recKeys_append]
      rw [List.mem_append]
      rintro (hxa | hxk)
      · exact hdisj x (List.mem_cons_of_mem k hx) hxa
      · rw [show recKeys [(k, v)] = [k] from rfl] at hxk
        rcases List.mem_singleton.mp hxk with rfl
        exact hkm hx

end Storage

open Excel Config Storage Fixtures

/-! ## Claims -/

/-- Claim C5: round-trip law for the cell/range algebra — for every
well-formed cell text `s`, formatting the parsed cell returns `s`
(`Cell.String(NewCell(s)) == s`), and for every well-formed range text `s`
containing exactly one `':'`, `Range.String(NewRange(s)) == s`. -/
theorem C5_cell_range_roundtrip :
    (∀ s : GoStr, WFCell s → ∃ c, NewCell s = some c ∧ c.toGoStr = s) ∧
    (∀ s : GoStr, WFRange s → ∃ r, NewRange s = some r ∧ r.toGoStr = s) :=
  ⟨newCell_roundtrip, newRange_roundtrip⟩

/-- Witness for C5, at cell text `"A3"` and range text `"A3:AR"`. -/
theorem C5_witness :
    WFCell (str "A3") ∧ WFRange (str "A3:AR") ∧
    (∃ c, NewCell (str "A3") = some c ∧ c.toGoStr = str "A3") ∧
    (∃ r, NewRange (str "A3:AR") = some r ∧ r.toGoStr = str "A3:AR") := by
  have hc : WFCell (str "A3") :=
    Or.inr ⟨str "A", 3, by decide, by decide, by decide, by decide⟩
  have hr : WFRange (str "A3:AR") :=
    ⟨str "A3", str "AR", by decide, hc, Or.inl (by decide), by decide, by decide⟩
  exact ⟨hc, hr, C5_cell_range_roundtrip.1 _ hc, C5_cell_range_roundtrip.2 _ hr⟩

/-- Claim C7: `ToOptionString` renders only the fields that are set, in the
fixed order `header`, `stop_at_empty`, `all_varchar`, `sheet`, `range`,
strings quoted; for `{header:true, stop_at_empty:true,
sheet:"Payout Breakup", all_varchar:false}` the clause is
`header=true,` then `stop_at_empty=true,` then `sheet='Payout Breakup',`
in that order, with no `all_varchar` fragment. -/
theorem C7_toOptionString :
    ImportConfig.ToOptionString
        { Header := true, StopAtEmpty := true, Sheet := str "Payout Breakup",
          AllVarchar := false }
      = str "header=true," ++ str "stop_at_empty=true," ++ str "sheet='Payout Breakup'," := by
  decide

/-- Claim C8: table-name derivation — an explicitly set `table_name` is
returned verbatim; otherwise
`payout_<lower(platform)>_<sheet, spaces→_>_<range, colons→_>`, lower-casing
only the platform segment; in particular platform `"swiggy"`, sheet
`"Order Level"`, range `"A3:AR"` gives `payout_swiggy_Order_Level_A3_AR`
(shown for both `"swiggy"` and `"Swiggy"` to exhibit the lower-casing). -/
theorem C8_getTableName :
    (∀ (p : ImportConfig) (platform : GoStr),
      p.TableName ≠ [] → p.GetTableName platform = p.TableName) ∧
    ImportConfig.GetTableName { Sheet := str "Order Level", Range := str "A3:AR" }
        (str "swiggy") = str "payout_swiggy_Order_Level_A3_AR" ∧
    ImportConfig.GetTableName { Sheet := str "Order Level", Range := str "A3:AR" }
        (str "Swiggy") = str "payout_swiggy_Order_Level_A3_AR" := by
  refine ⟨?_, by decide, by decide⟩
  intro p platform h
  simp [ImportConfig.GetTableName, h]

/-- Witness for C8, at a config with an explicit table name. -/
theorem C8_witness :
    (str "custom" ≠ ([] : GoStr)) ∧
    ImportConfig.GetTableName { TableName := str "custom" } (str "swiggy") = str "custom" :=
  ⟨by decide, C8_getTableName.1 { TableName := str "custom" } (str "swiggy") (by decide)⟩

/-- Claim C1: projection merge semantics of `GetPlatformExcelRows` — export
configs are applied in declared order; two exports with disjoint column
sets produce the union of both mappings, and for a column name present in
both results the later-declared export's value is the one in the final
record (last-write-wins). -/
theorem C1_projection_merge (db : DuckDB) (docID : Int) (platform : GoStr)
    (imports : List ImportConfig) (e1 e2 : ExportConfig)
    (m1 m2 : List (GoStr × GoValue))
    (h1r : e1.ReaderConfigs ≠ []) (h2r : e2.ReaderConfigs ≠ [])
    (h1 : db.projQuery (exportQueryStr e1 platform) docID = .ok (some m1))
    (h2 : db.projQuery (exportQueryStr e2 platform) docID = .ok (some m2))
    (hn1 : (recKeys m1).Nodup) (hn2 : (recKeys m2).Nodup) :
    ∃ r, GetPlatformExcelRows db docID platform ⟨imports, [e1, e2]⟩ = .ok r ∧
      ((∀ k ∈ recKeys m1, k ∉ recKeys m2) → r = m1 ++ m2) ∧
      (∀ k, recLookup r k =
        match recLookup m2 k with
        | some v => some v
        | none => recLookup m1 k) := by
  refine ⟨mergeRecord (mergeRecord [] m1) m2, ?_, ?_, ?_⟩
  · simp [GetPlatformExcelRows, getRowsLoop, h1r, h2r, h1, h2]
  · intro hdisj
    have hm1 : mergeRecord [] m1 = m1 := by
      rw [mergeRecord_append m1 [] hn1 (fun x _ hc => by simp [recKeys] at hc)]
      simp
    rw [hm1, mergeRecord_append m2 m1 hn2 (fun x hx hc => hdisj x hc hx)]
  · intro k
    rw [recLookup_mergeRecord m2 _ k hn2, recLookup_mergeRecord m1 _ k hn1]
    cases recLookup m2 k <;> cases recLookup m1 k <;> simp [recLookup]

/-- Witness for C1, with both exports' queries returning `projMap`. -/
theorem C1_witness :
    ∃ r, GetPlatformExcelRows dbProj 5 (str "swiggy") ⟨[], [exportA, exportB]⟩ = .ok r ∧
      ((∀ k ∈ recKeys projMap, k ∉ recKeys projMap) → r = projMap ++ projMap) ∧
      (∀ k, recLookup r k =
        match recLookup projMap k with
        | some v => some v
        | none => recLookup projMap k) :=
  C1_projection_merge dbProj 5 (str "swiggy") [] exportA exportB projMap projMap
    (by decide) (by decide) rfl rfl (by decide) (by decide)

/-- Claim C2: relative range resolution follows §4.3 — anchor `"A3:AR"`,
`header=true`, 50 stored rows: resolved anchor end row `3 + 50 = 53`, and a
dependent config with `rows_offset=2` gets effective range `"A55:AR"`;
anchor `"B2:C"`, `header=false`, 10 stored rows: adjusted count `9`, anchor
end row `2 + 9 = 11`, and a dependent config with `rows_offset=0` gets
start row 11 (effective range `"B11:C"`). -/
theorem C2_relative_range :
    GetRangeEnd dbCount50 7 (str "swiggy") anchorA3AR
        = .ok ⟨⟨str "A", 3⟩, ⟨str "AR", 53⟩⟩ ∧
    resolveImportConfig dbCount50 7 (str "swiggy")
        ⟨[filler, anchorA3AR], []⟩ depOffset2
        = .ok { depOffset2 with Range := str "A55:AR" } ∧
    GetRangeEnd dbCount10 7 (str "swiggy") anchorB2C
        = .ok ⟨⟨str "B", 2⟩, ⟨str "C", 11⟩⟩ ∧
    resolveImportConfig dbCount10 7 (str "swiggy")
        ⟨[filler, anchorB2C], []⟩ depOffset0
        = .ok { depOffset0 with Range := str "B11:C" } :=
  ⟨rfl, rfl, rfl, rfl⟩

/-- Claim C10 (implicit): for an anchor import config whose declared range
has no explicit end row and `header=false`, if zero rows are scanned for
the document (either a zero count, or a failed `rows.Scan` that is
discarded leaving the count at 0), `GetRangeEnd` returns an end row equal
to `start.row - 1`, strictly below the range's own start row. -/
theorem C10_open_anchor_zero_rows (db : DuckDB) (docID : Int) (platform : GoStr)
    (option : ImportConfig) (rso : Excel.Range)
    (hparse : NewRange option.Range = some rso)
    (hopen : ¬ rso.End.Row > 0)
    (hH : option.Header = false)
    (hne : option.Range ≠ [])
    (hc : db.count (countQueryStr (option.GetTableName platform)) docID = .ok none ∨
          db.count (countQueryStr (option.GetTableName platform)) docID = .ok (some 0)) :
    GetRangeEnd db docID platform option
        = .ok ⟨rso.Start, ⟨rso.End.Column, rso.Start.Row - 1⟩⟩ ∧
    rso.Start.Row - 1 < rso.Start.Row := by
  refine ⟨?_, by omega⟩
  rcases hc with hc | hc <;>
    simp [GetRangeEnd, hparse, hopen, hne, hH, hc] <;> omega

/-- Witness for C10, at the header-less anchor `"B2:C"` with a zero count:
the resolved end row is `2 - 1 = 1`, below the start row `2`. -/
theorem C10_witness :
    GetRangeEnd dbTrivial 7 (str "swiggy") anchorB2C
        = .ok ⟨⟨str "B", 2⟩, ⟨str "C", 1⟩⟩ ∧
    (1 : Int) < 2 := by
  have h := C10_open_anchor_zero_rows dbTrivial 7 (str "swiggy") anchorB2C
      ⟨⟨str "B", 2⟩, ⟨str "C", 0⟩⟩ rfl (by decide) rfl (by decide) (Or.inr rfl)
  exact ⟨h.1, by omega⟩

/-- C3 counterexample: an applied export config whose projection query
returns no row for the document does **not** make `GetPlatformExcelRows`
fail — the discarded `rows.Scan` error leaves the scanned map zero-valued
and the call succeeds with the untouched (empty) record. -/
theorem C3_counterexample :
    GetPlatformExcelRows dbTrivial 5 (str "swiggy") ⟨[], [exportA]⟩ = .ok [] := rfl

/-- Claim C3 (amended): for an applied export config, an error reported by
the projection query (`rows.Err()`) makes `GetPlatformExcelRows` fail with
the wrapped query error; but a missing row for the document is silently
ignored — the `rows.Scan` error is discarded and the export contributes
nothing to the record. -/
theorem C3_projection_error_handling (db : DuckDB) (docID : Int) (platform : GoStr)
    (imports : List ImportConfig) (ec : ExportConfig)
    (hr : ec.ReaderConfigs ≠ []) :
    (∀ e, db.projQuery (exportQueryStr ec platform) docID = .error e →
      GetPlatformExcelRows db docID platform ⟨imports, [ec]⟩
        = .error (str "failed to query platform table: " ++ e)) ∧
    (db.projQuery (exportQueryStr ec platform) docID = .ok none →
      GetPlatformExcelRows db docID platform ⟨imports, [ec]⟩ = .ok []) := by
  constructor
  · intro e he
    simp [GetPlatformExcelRows, getRowsLoop, hr, he]
  · intro hnone
    simp [GetPlatformExcelRows, getRowsLoop, hr, hnone]

/-- Witness for C3's amended theorem, on a connection whose projection
query scan fails. -/
theorem C3_witness :
    (exportB.ReaderConfigs ≠ []) ∧
    GetPlatformExcelRows dbTrivial 6 (str "zomato") ⟨[], [exportB]⟩ = .ok [] :=
  ⟨by decide,
    (C3_projection_error_handling dbTrivial 6 (str "zomato") [] exportB (by decide)).2 rfl⟩

/-- C4 counterexample: a platform config whose only import config carries
`relative_config_index = 1` (out of bounds for the one-element list) makes
`ProcessPlatformExcel` crash with Go's index-out-of-range runtime panic —
it does not return an error to the caller. -/
theorem C4_counterexample :
    ProcessPlatformExcel dbTrivial 1 (str "f.xlsx") (str "swiggy")
        ⟨[{ RelativeRange := ⟨1, 0⟩ }], []⟩
      = (.crash (str "runtime error: index out of range"), [],
         ⟨[{ RelativeRange := ⟨1, 0⟩ }], []⟩) := rfl

/-- Claim C4 (amended): whenever processing reaches an import config whose
`relative_range.relative_config_index` is greater than 0 but out of bounds
for the platform's import-config list, the engine neither skips the config
nor returns an `UnresolvedRelativeRange` error — the unchecked slice index
panics (crashing the run) before any statement for that config is issued. -/
theorem C4_out_of_range_panics (db : DuckDB) (docID : Int) (filePath platform : GoStr)
    (options : PlatformConfig) (ic : ImportConfig) (rest : List ImportConfig)
    (trace : List GoStr)
    (hpos : ic.RelativeRange.RelativeConfigIndex > 0)
    (hoob : options.ImportConfigs[ic.RelativeRange.RelativeConfigIndex.toNat]? = none) :
    processConfigs db docID filePath platform options (ic :: rest) trace
      = (.crash (str "runtime error: index out of range"), trace, options) := by
  simp [processConfigs, resolveImportConfig, hpos, hoob]

/-- Witness for C4's amended theorem, with the bad config in second
position of a two-element list pointing at index 3. -/
theorem C4_witness :
    processConfigs dbTrivial 2 (str "f.xlsx") (str "swiggy")
        ⟨[filler, { RelativeRange := ⟨3, 1⟩ }], []⟩ [{ RelativeRange := ⟨3, 1⟩ }] []
      = (.crash (str "runtime error: index out of range"), [],
         ⟨[filler, { RelativeRange := ⟨3, 1⟩ }], []⟩) :=
  C4_out_of_range_panics dbTrivial 2 (str "f.xlsx") (str "swiggy")
    ⟨[filler, { RelativeRange := ⟨3, 1⟩ }], []⟩ { RelativeRange := ⟨3, 1⟩ } [] []
    (by decide) (by decide)

/-- Claim C6: per import config, the `INSERT ... BY NAME` statement is
issued first; the positional insert is issued only if the name-based one
failed (when it succeeds the loop moves on with no fallback statement
issued); if both fail, the iteration returns a single error carrying both
underlying causes and the remaining import configs are not processed — the
statement trace ends at the failed config, previously issued statements
are retained (no rollback) and nothing is retried. -/
theorem C6_ingestion_fallback (db : DuckDB) (docID : Int) (filePath platform : GoStr)
    (options : PlatformConfig) (ic ric : ImportConfig) (rest : List ImportConfig)
    (trace : List GoStr)
    (hres : resolveImportConfig db docID platform options ic = .ok ric)
    (hcreate : db.exec (createStmtStr (ric.GetTableName platform) docID filePath
        ric.ToOptionString) = none) :
    (∀ e1 e2,
      db.exec (insertByNameStmtStr (ric.GetTableName platform) docID filePath
          ric.ToOptionString) = some e1 →
      db.exec (insertFallbackStmtStr (ric.GetTableName platform) docID filePath
          ric.ToOptionString) = some e2 →
      processConfigs db docID filePath platform options (ic :: rest) trace
        = (.err (str "failed to insert excel data: " ++ e1
              ++ str " (fallback error: " ++ e2 ++ str ")"),
           trace ++ [createStmtStr (ric.GetTableName platform) docID filePath
               ric.ToOptionString,
             insertByNameStmtStr (ric.GetTableName platform) docID filePath
               ric.ToOptionString,
             insertFallbackStmtStr (ric.GetTableName platform) docID filePath
               ric.ToOptionString],
           options)) ∧
    (db.exec (insertByNameStmtStr (ric.GetTableName platform) docID filePath
        ric.ToOptionString) = none →
      processConfigs db docID filePath platform options (ic :: rest) trace
        = processConfigs db docID filePath platform options rest
            (trace ++ [createStmtStr (ric.GetTableName platform) docID filePath
                ric.ToOptionString,
              insertByNameStmtStr (ric.GetTableName platform) docID filePath
                ric.ToOptionString])) := by
  constructor
  · intro e1 e2 h1 h2
    simp [processConfigs, hres, hcreate, h1, h2]
  · intro h1
    simp [processConfigs, hres, hcreate, h1]

/-- Witness for C6, on a connection failing exactly the two insert
statements of `c6cfg` (name-based with `nameERR`, positional with
`posERR`). -/
theorem C6_witness :
    processConfigs dbInsertFail 1 (str "f.xlsx") (str "swiggy") ⟨[c6cfg], []⟩ [c6cfg] []
      = (.err (str "failed to insert excel data: nameERR (fallback error: posERR)"),
         [createStmtStr (c6cfg.GetTableName (str "swiggy")) 1 (str "f.xlsx")
            c6cfg.ToOptionString,
          insertByNameStmtStr (c6cfg.GetTableName (str "swiggy")) 1 (str "f.xlsx")
            c6cfg.ToOptionString,
          insertFallbackStmtStr (c6cfg.GetTableName (str "swiggy")) 1 (str "f.xlsx")
            c6cfg.ToOptionString],
         ⟨[c6cfg], []⟩) := by
  have h := (C6_ingestion_fallback dbInsertFail 1 (str "f.xlsx") (str "swiggy")
      ⟨[c6cfg], []⟩ c6cfg c6cfg [] [] rfl (by decide)).1
      (str "nameERR") (str "posERR") (by decide) (by decide)
  exact h

/-- Claim C9: configuration immutability — `ProcessPlatformExcel` returns
with the `PlatformConfig` value it was given unchanged: the Go loop
iterates over element copies, and the range-resolution step writes only to
that per-iteration working copy, never through `options`. -/
theorem C9_config_immutable (db : DuckDB) (docID : Int) (filePath platform : GoStr)
    (options : PlatformConfig) :
    (ProcessPlatformExcel db docID filePath platform options).2.2 = options := by
  suffices h : ∀ (l : List ImportConfig) (trace : List GoStr),
      (processConfigs db docID filePath platform options l trace).2.2 = options from
    h options.ImportConfigs []
  intro l
  induction l with
  | nil => intro trace; rfl
  | cons ic rest ih =>
    intro trace
    simp only [processConfigs]
    cases resolveImportConfig db docID platform options ic with
    | crash e => rfl
    | err e => rfl
    | ok ric =>
      simp only []
      cases db.exec (createStmtStr (ric.GetTableName platform) docID filePath
          ric.ToOptionString) with
      | some e => rfl
      | none =>
        simp only []
        cases db.exec (insertByNameStmtStr (ric.GetTableName platform) docID filePath
            ric.ToOptionString) with
        | none => exact ih _
        | some e =>
          simp only []
          cases db.exec (insertFallbackStmtStr (ric.GetTableName platform) docID filePath
              ric.ToOptionString) with
          | none => exact ih _
          | some e2 => rfl
